import Mathlib

/-
  Verification of the Rustora Dataset Session Engine (core_engine crate).

  The Rust sources under src/core_engine/src/ are shallowly embedded here:
  pure functions (the filter compiler of filter.rs, name sanitization of
  storage.rs) become Lean functions over `String`/`List Char`; the stateful
  session of session.rs becomes explicit state passing over a `Session`
  structure.  Calls into the external engines (DuckDB query execution,
  Polars evaluation, the file system) are uninterpreted: reads return
  provenance-tagged values recording which substrate answered and with
  which parameters, and file-system facts (existence, extension, stem) are
  passed in as data.
-/

namespace Rustora

deriving instance DecidableEq for Except

/-- Error type of the engine, translated from src/core_engine/src/error.rs
(enum `RustoraError`).  Message payloads are kept as plain strings. -/
inductive RustoraError where
  | unsupportedFormat (msg : String)
  | fileNotFound (msg : String)
  | polars (msg : String)
  | duckDb (msg : String)
  | io (msg : String)
  | noActiveDataFrame
  | tableNotFound (msg : String)
  | columnNotFound (msg : String)
  | invalidEdit (msg : String)
  | noProjectOpen
  | session (msg : String)
deriving DecidableEq, Repr

/-- Filter operators, from src/core_engine/src/filter.rs (enum `FilterOperator`). -/
inductive FilterOperator where
  | equals
  | notEquals
  | greaterThan
  | greaterThanOrEqual
  | lessThan
  | lessThanOrEqual
  | contains
  | notContains
  | startsWith
  | endsWith
  | isNull
  | isNotNull
deriving DecidableEq, Repr

/-- A single filter condition, from filter.rs (struct `FilterCondition`). -/
structure FilterCondition where
  column : String
  operator : FilterOperator
  value : String
deriving DecidableEq, Repr

/-- Logical combinator, from filter.rs (enum `FilterLogic`). -/
inductive FilterLogic where
  | and
  | or
deriving DecidableEq, Repr

/-- A complete filter specification, from filter.rs (struct `FilterSpec`). -/
structure FilterSpec where
  conditions : List FilterCondition
  logic : FilterLogic
deriving DecidableEq, Repr

/-- One pass of Rust `str::replace` for a single-character pattern: every
occurrence of `c` in the character list is replaced by `rep`. -/
def replaceChar (c : Char) (rep : List Char) : List Char → List Char
  | [] => []
  | a :: rest =>
    if a = c then rep ++ replaceChar c rep rest else a :: replaceChar c rep rest

/-- Translation of `escape_sql_string` (filter.rs line 85):
`val.replace('\'', "''")`. -/
def escape_sql_string (val : String) : String :=
  ⟨replaceChar '\'' ['\'', '\''] val.data⟩

/-- Translation of `escape_like` (filter.rs line 145):
`escape_sql_string(s).replace('%', "\\%").replace('_', "\\_")`, modelled as the
same three sequential single-character replacement passes. -/
def escape_like (s : String) : String :=
  ⟨replaceChar '_' ['\\', '_']
    (replaceChar '%' ['\\', '%']
      (replaceChar '\'' ['\'', '\''] s.data))⟩

/-- Strip one optional leading sign, as in the grammar of `f64::from_str`. -/
def stripSign : List Char → List Char
  | '+' :: rest => rest
  | '-' :: rest => rest
  | l => l

/-- All characters are decimal digits. -/
def allDigits (l : List Char) : Bool := l.all (fun c => c.isDigit)

/-- At least one character, all decimal digits. -/
def digitsNonempty (l : List Char) : Bool := !l.isEmpty && allDigits l

/-- Exponent suffix (the part after an `e`/`E`): optional sign then one or
more digits. -/
def matchExpSuffix (l : List Char) : Bool := digitsNonempty (stripSign l)

/-- Mantissa of the `f64::from_str` grammar:
`Digit+ | Digit+ '.' Digit* | Digit* '.' Digit+`. -/
def matchMantissa (l : List Char) : Bool :=
  let intPart := l.takeWhile (fun c => c.isDigit)
  let rest := l.drop intPart.length
  match rest with
  | [] => !intPart.isEmpty
  | '.' :: frac => allDigits frac && (!intPart.isEmpty || !frac.isEmpty)
  | _ => false

/-- Number of the `f64::from_str` grammar: mantissa with an optional
exponent part introduced by `e` or `E`. -/
def matchNumber (l : List Char) : Bool :=
  match l.span (fun c => c ≠ 'e' && c ≠ 'E') with
  | (mant, []) => matchMantissa mant
  | (mant, _ :: expPart) => matchMantissa mant && matchExpSuffix expPart

/-- Lower-case a character list (for the case-insensitive keywords). -/
def lowerData (l : List Char) : List Char := l.map Char.toLower

/-- Translation of `is_numeric` (filter.rs line 129):
`s.parse::<f64>().is_ok()`, modelled from the documented grammar of Rust
`f64::from_str`: `Sign? ( 'inf' | 'infinity' | 'nan' | Number )` with the
keywords case-insensitive, `Number ::= Mantissa Exp?`,
`Exp ::= ('e' | 'E') Sign? Digit+`. -/
def is_numeric (s : String) : Bool :=
  let body := stripSign s.data
  lowerData body == "inf".data || lowerData body == "infinity".data ||
    lowerData body == "nan".data || matchNumber body

/-- Character allow-list of `sanitize_column_name` (filter.rs line 74):
alphanumeric, underscore, space, dot.  Rust `char::is_alphanumeric` is
Unicode-aware; the model uses the ASCII letter/digit classification
(`Char.isAlphanum`), which agrees with it on every ASCII input (all inputs
appearing in the claims). -/
def columnChar (c : Char) : Bool :=
  c.isAlphanum || c = '_' || c = ' ' || c = '.'

/-- Translation of `sanitize_column_name` (filter.rs lines 69 to 82):
empty or over-long (more than 256 bytes) names fail with `ColumnNotFound`,
names with a character outside the allow-list fail with `Session`, and valid
names are wrapped in double quotes. -/
def sanitize_column_name (name : String) : Except RustoraError String :=
  if name.utf8ByteSize = 0 || name.utf8ByteSize > 256 then
    .error (.columnNotFound name)
  else if name.data.all columnChar then
    .ok ("\"" ++ name ++ "\"")
  else
    .error (.session ("Invalid column name: " ++ name))

/-- Translation of `format_comparison_value` (filter.rs lines 135 to 141). -/
def format_comparison_value (s : String) : String :=
  if is_numeric s then s else "'" ++ escape_sql_string s ++ "'"

/-- Translation of `condition_to_sql` (filter.rs lines 89 to 127); each match
arm mirrors the corresponding `format!` template of the source. -/
def condition_to_sql (cond : FilterCondition) : Except RustoraError String := do
  let col ← sanitize_column_name cond.column
  let escaped_val := escape_sql_string cond.value
  match cond.operator with
  | .equals =>
    if is_numeric cond.value then pure (col ++ " = " ++ cond.value)
    else pure (col ++ " = '" ++ escaped_val ++ "'")
  | .notEquals =>
    if is_numeric cond.value then pure (col ++ " != " ++ cond.value)
    else pure (col ++ " != '" ++ escaped_val ++ "'")
  | .greaterThan => pure (col ++ " > " ++ format_comparison_value cond.value)
  | .greaterThanOrEqual => pure (col ++ " >= " ++ format_comparison_value cond.value)
  | .lessThan => pure (col ++ " < " ++ format_comparison_value cond.value)
  | .lessThanOrEqual => pure (col ++ " <= " ++ format_comparison_value cond.value)
  | .contains => pure (col ++ " LIKE '%" ++ escape_like cond.value ++ "%'")
  | .notContains => pure (col ++ " NOT LIKE '%" ++ escape_like cond.value ++ "%'")
  | .startsWith => pure (col ++ " LIKE '" ++ escape_like cond.value ++ "%'")
  | .endsWith => pure (col ++ " LIKE '%" ++ escape_like cond.value ++ "'")
  | .isNull => pure (col ++ " IS NULL")
  | .isNotNull => pure (col ++ " IS NOT NULL")

/-- Sequential map-and-collect over conditions, the embedding of
`iter().map(condition_to_sql).collect::<Result<Vec<_>>>()`: stops at the
first error. -/
def mapCollect (f : FilterCondition → Except RustoraError String) :
    List FilterCondition → Except RustoraError (List String)
  | [] => .ok []
  | c :: rest => do
    let s ← f c
    let restResults ← mapCollect f rest
    pure (s :: restResults)

/-- Translation of `FilterSpec::to_sql_where` (filter.rs lines 47 to 66). -/
def FilterSpec.to_sql_where (spec : FilterSpec) : Except RustoraError String :=
  if spec.conditions.isEmpty then
    .error (.session "Filter must have at least one condition")
  else do
    let clauses ← mapCollect condition_to_sql spec.conditions
    let joiner := match spec.logic with
      | .and => " AND "
      | .or => " OR "
    pure (String.intercalate joiner clauses)

/-! ## Session and storage model (session.rs, storage.rs) -/

/-- Digit character for one decimal digit (used by the decimal renderer). -/
def digitChar (d : Nat) : Char :=
  match d with
  | 0 => '0'
  | 1 => '1'
  | 2 => '2'
  | 3 => '3'
  | 4 => '4'
  | 5 => '5'
  | 6 => '6'
  | 7 => '7'
  | 8 => '8'
  | _ => '9'

/-- Little-endian decimal digits, structurally recursive on a fuel bound so
that the definition reduces by computation.  The fuel is consumed once per
digit; `fuel ≥ n` always suffices because the argument at least halves. -/
def natDigitsRevAux : Nat → Nat → List Char
  | 0, _ => []
  | _ + 1, 0 => []
  | fuel + 1, n + 1 =>
    digitChar ((n + 1) % 10) :: natDigitsRevAux fuel ((n + 1) / 10)

/-- Little-endian decimal digits of a positive number (empty for zero). -/
def natDigitsRev (n : Nat) : List Char := natDigitsRevAux n n

/-- Decimal rendering of a counter value: the embedding of Rust
`format!("{}", n)` for the unsigned session counter. -/
def natToString (n : Nat) : String :=
  if n = 0 then "0" else ⟨(natDigitsRev n).reverse⟩

/-- Value of one decimal digit character (inverse of `digitChar`; 10 for
non-digits). -/
def digitVal (c : Char) : Nat :=
  match c with
  | '0' => 0
  | '1' => 1
  | '2' => 2
  | '3' => 3
  | '4' => 4
  | '5' => 5
  | '6' => 6
  | '7' => 7
  | '8' => 8
  | '9' => 9
  | _ => 10

/-- Value of a little-endian digit list (inverse of `natDigitsRev`). -/
def digitsValRev : List Char → Nat
  | [] => 0
  | c :: rest => digitVal c + 10 * digitsValRev rest

/-- Translation of `sanitize_table_name` (storage.rs lines 335 to 339): every
character that is not alphanumeric or underscore becomes an underscore.  As
with `columnChar`, Rust `char::is_alphanumeric` is modelled by the ASCII
classification, which agrees on all ASCII inputs. -/
def sanitize_table_name (name : String) : String :=
  ⟨name.data.map (fun c => if c.isAlphanum || c = '_' then c else '_')⟩

/-- State of the persistent store (struct `DuckStorage`, storage.rs): the
connection is modelled by the list of names of the tables currently in the
database.  DuckDB keeps table names unique, so the list is used with set
semantics. -/
structure DuckStorage where
  db_path : String
  tables : List String
deriving DecidableEq, Repr

/-- Effect of `CREATE OR REPLACE TABLE name AS ...` on the table list:
replacement keeps the name present, creation adds it. -/
def createOrReplace (name : String) (tables : List String) : List String :=
  if name ∈ tables then tables else tables ++ [name]

/-- Translation of `DuckStorage::list_tables` (storage.rs line 186).  In the
model the query against `information_schema` always succeeds and returns the
current table names. -/
def DuckStorage.list_tables (st : DuckStorage) : List String := st.tables

/-- A transient Polars lazy computation graph.  Its internal structure is
external to this core (the Polars engine is uninterpreted), so the model only
records how the session built it. -/
inductive LazyFrame where
  | scan (path : String)
  | sorted (src : LazyFrame) (columns : List String) (descending : List Bool)
  | filtered (src : LazyFrame)
  | registered (id : Nat)
deriving DecidableEq, Repr

/-- Lookup in the transient map (`HashMap::get`): first binding of the key
(insertion keeps keys unique, so there is at most one). -/
def tlookup : List (String × LazyFrame) → String → Option LazyFrame
  | [], _ => none
  | p :: rest, k => if p.1 = k then some p.2 else tlookup rest k

/-- Removal from the transient map (`HashMap::remove`, state part): drops
every binding of the key. -/
def tremove : List (String × LazyFrame) → String → List (String × LazyFrame)
  | [], _ => []
  | p :: rest, k => if p.1 = k then tremove rest k else p :: tremove rest k

/-- Insertion into the transient map (`HashMap::insert`): the new binding
replaces any previous binding of the same key. -/
def tinsert (m : List (String × LazyFrame)) (k : String) (v : LazyFrame) :
    List (String × LazyFrame) :=
  (k, v) :: tremove m k

/-- Keys of the transient map. -/
def tkeys (m : List (String × LazyFrame)) : List String := m.map Prod.fst

/-- Session state (struct `RustoraSession`, session.rs lines 32 to 39):
optional persistent store, transient map, and the shared name counter. -/
structure Session where
  storage : Option DuckStorage
  transient : List (String × LazyFrame)
  counter : Nat
deriving DecidableEq, Repr

/-- Facts about a file path that the session derives through `std::path::Path`
(existence, lower-cased extension, file stem).  The file system is external,
so these are passed in as data alongside the path string. -/
structure SourceFile where
  path : String
  present : Bool
  ext : String
  stem : String
deriving DecidableEq, Repr

/-- Extensions accepted by the import/scan dispatch (session.rs lines 128 to
141, storage.rs lines 79 to 84). -/
def supportedExtension (ext : String) : Bool :=
  ext == "csv" || ext == "tsv" || ext == "parquet" || ext == "pq" ||
    ext == "ipc" || ext == "arrow" || ext == "feather"

/-- Translation of `DuckStorage::import_file` (storage.rs lines 65 to 87):
missing file fails with `FileNotFound`, unknown extension with
`UnsupportedFormat`; otherwise the table is created (or replaced) under the
sanitized name, which is returned.  The native readers themselves are
external and succeed in the model. -/
def DuckStorage.import_file (st : DuckStorage) (f : SourceFile)
    (table_name : String) : Except RustoraError (String × DuckStorage) :=
  if f.present = false then
    .error (.fileNotFound f.path)
  else
    let safe_name := sanitize_table_name table_name
    if supportedExtension f.ext then
      .ok (safe_name, { st with tables := createOrReplace safe_name st.tables })
    else
      .error (.unsupportedFormat f.ext)

/-- Translation of `DuckStorage::execute_sql_to_table` (storage.rs lines 287
to 297): sanitizes the result table name, materializes via create-or-replace
and returns the sanitized name.  The SQL execution itself is external and
succeeds in the model. -/
def DuckStorage.execute_sql_to_table (st : DuckStorage) (_sql : String)
    (result_table : String) : String × DuckStorage :=
  let safe_name := sanitize_table_name result_table
  (safe_name, { st with tables := createOrReplace safe_name st.tables })

/-- Translation of `DuckStorage::drop_table` (storage.rs lines 277 to 283):
`DROP TABLE IF EXISTS`. -/
def DuckStorage.drop_table (st : DuckStorage) (name : String) : DuckStorage :=
  { st with tables := st.tables.filter (fun t => !(t == name)) }

/-- Translation of `RustoraSession::new` (session.rs lines 43 to 50): a fresh
session immediately opens an in-memory scratch DuckDB database.  In the model
`DuckStorage::open_in_memory` cannot fail, so the `.ok()` always produces a
present storage handle. -/
def Session.new : Session :=
  { storage := some { db_path := ":memory:", tables := [] },
    transient := [],
    counter := 0 }

/-- Translation of `RustoraSession::open_project` (session.rs lines 54 to
62) on the success path: the persistent store of the project file (whose
table set `existing` is data of the external database file) replaces the
active one and the transient map is cleared. -/
def Session.open_project (s : Session) (db_path : String)
    (existing : List String) : List String × Session :=
  (existing,
    { storage := some { db_path := db_path, tables := existing },
      transient := [],
      counter := s.counter })

/-- Translation of `RustoraSession::next_counter` (session.rs lines 81 to
85): increment, then return the incremented value. -/
def Session.next_counter (s : Session) : Nat × Session :=
  (s.counter + 1, { s with counter := s.counter + 1 })

/-- Translation of `RustoraSession::generate_name` (session.rs lines 87 to
93): file stem (with its `"dataset"` fallback already applied in
`SourceFile.stem`) joined with the next counter value. -/
def Session.generate_name (s : Session) (f : SourceFile) : String × Session :=
  let (c, s1) := s.next_counter
  (f.stem ++ "_" ++ natToString c, s1)

/-- Translation of `RustoraSession::import_file` (session.rs lines 101 to
112).  Note the source returns `name` (the requested or generated name), not
the sanitized name that `DuckStorage::import_file` returns: the storage
result is discarded with `?`. -/
def Session.import_file (s : Session) (f : SourceFile)
    (table_name : Option String) : Except RustoraError (String × Session) :=
  match s.storage with
  | none => .error .noProjectOpen
  | some st =>
    let (name, s1) := match table_name with
      | some n => (n, s)
      | none => s.generate_name f
    match st.import_file f name with
    | .error e => .error e
    | .ok (_safe_name, st2) => .ok (name, { s1 with storage := some st2 })

/-- Translation of `RustoraSession::scan_file` (session.rs lines 116 to 146):
existence and extension checks, then registration of a lazy scan under a
generated name. -/
def Session.scan_file (s : Session) (f : SourceFile) :
    Except RustoraError (String × Session) :=
  if f.present = false then
    .error (.fileNotFound f.path)
  else if supportedExtension f.ext then
    let (name, s1) := s.generate_name f
    .ok (name, { s1 with transient := tinsert s1.transient name (.scan f.path) })
  else
    .error (.unsupportedFormat f.ext)

/-- Lexicographic comparison on character lists (for the model of
`Vec::sort` on strings; any total order gives the same membership). -/
def listLe : List Char → List Char → Bool
  | [], _ => true
  | _ :: _, [] => false
  | a :: as, b :: bs => if a = b then listLe as bs else decide (a < b)

/-- String order used by the sorting model. -/
def strLe (a b : String) : Bool := listLe a.data b.data

/-- Ordered insertion (helper of the sorting model). -/
def insertSorted (x : String) : List String → List String
  | [] => [x]
  | y :: ys => if strLe x y then x :: y :: ys else y :: insertSorted x ys

/-- Model of `Vec::sort` for strings: insertion sort (extensionally a sort,
which is all the session observes). -/
def sortStrings : List String → List String
  | [] => []
  | x :: xs => insertSorted x (sortStrings xs)

/-- Model of `Vec::dedup`: removes consecutive equal elements. -/
def dedupAdjacent : List String → List String
  | [] => []
  | [a] => [a]
  | a :: b :: rest =>
    if a = b then dedupAdjacent (b :: rest) else a :: dedupAdjacent (b :: rest)

/-- Translation of `RustoraSession::list_datasets` (session.rs lines 153 to
165): transient keys, extended with the persistent table names when a store
is active, sorted, deduplicated. -/
def Session.list_datasets (s : Session) : List String :=
  let names := tkeys s.transient ++
    (match s.storage with
     | some st => st.list_tables
     | none => [])
  dedupAdjacent (sortStrings names)

/-- Provenance of Arrow IPC bytes produced by a read: which substrate
answered and with which slicing parameters.  The byte stream itself comes
from the external engines and is uninterpreted. -/
inductive IpcSource where
  | storageChunk (table : String) (offset limit : Nat)
  | transientSlice (lf : LazyFrame) (offset limit : Nat)
deriving DecidableEq, Repr

/-- Translation of `RustoraSession::get_preview_ipc` (session.rs lines 219
to 232): persistent table list first, then the transient map, else
`TableNotFound`.  The persistent path delegates to
`get_table_preview_ipc = get_table_chunk_ipc(name, 0, limit)`. -/
def Session.get_preview_ipc (s : Session) (name : String) (limit : Nat) :
    Except RustoraError IpcSource :=
  match s.storage with
  | some st =>
    if name ∈ st.list_tables then
      .ok (.storageChunk name 0 limit)
    else
      match tlookup s.transient name with
      | some lf => .ok (.transientSlice lf 0 limit)
      | none => .error (.tableNotFound name)
  | none =>
    match tlookup s.transient name with
    | some lf => .ok (.transientSlice lf 0 limit)
    | none => .error (.tableNotFound name)

/-- Translation of `RustoraSession::get_chunk_ipc` (session.rs lines 235 to
248). -/
def Session.get_chunk_ipc (s : Session) (name : String) (offset limit : Nat) :
    Except RustoraError IpcSource :=
  match s.storage with
  | some st =>
    if name ∈ st.list_tables then
      .ok (.storageChunk name offset limit)
    else
      match tlookup s.transient name with
      | some lf => .ok (.transientSlice lf offset limit)
      | none => .error (.tableNotFound name)
  | none =>
    match tlookup s.transient name with
    | some lf => .ok (.transientSlice lf offset limit)
    | none => .error (.tableNotFound name)

/-- Provenance of a row count: `table_row_count` on a persistent table or a
full collect of a transient frame. -/
inductive RowCountSource where
  | fromTable (table : String)
  | fromFrame (lf : LazyFrame)
deriving DecidableEq, Repr

/-- Translation of `RustoraSession::get_row_count` (session.rs lines 251 to
268): `storage.table_row_count(name)` succeeds exactly when the table
exists, so the routing is again persistent first, then transient, else
`TableNotFound`. -/
def Session.get_row_count (s : Session) (name : String) :
    Except RustoraError RowCountSource :=
  match s.storage with
  | some st =>
    if name ∈ st.list_tables then
      .ok (.fromTable name)
    else
      match tlookup s.transient name with
      | some lf => .ok (.fromFrame lf)
      | none => .error (.tableNotFound name)
  | none =>
    match tlookup s.transient name with
    | some lf => .ok (.fromFrame lf)
    | none => .error (.tableNotFound name)

/-- Provenance of a `DatasetInfo` answer (session.rs lines 173 to 211): the
`fromTable` case corresponds to `persistent = true` with the adapter-reported
schema and exact row count, `fromFrame` to `persistent = false` with the lazy
schema and unknown row count; the schema data itself is external. -/
inductive InfoSource where
  | fromTable (table : String)
  | fromFrame (name : String) (lf : LazyFrame)
deriving DecidableEq, Repr

/-- Translation of `RustoraSession::dataset_info` (session.rs lines 173 to
211): `storage.table_info(name)` succeeds exactly when the table exists. -/
def Session.dataset_info (s : Session) (name : String) :
    Except RustoraError InfoSource :=
  match s.storage with
  | some st =>
    if name ∈ st.list_tables then
      .ok (.fromTable name)
    else
      match tlookup s.transient name with
      | some lf => .ok (.fromFrame name lf)
      | none => .error (.tableNotFound name)
  | none =>
    match tlookup s.transient name with
    | some lf => .ok (.fromFrame name lf)
    | none => .error (.tableNotFound name)

/-- Translation of `RustoraSession::execute_sql` (session.rs lines 276 to
283): requires an active store, materializes into `sql_result_<counter>` and
returns that name. -/
def Session.execute_sql (s : Session) (sql : String) :
    Except RustoraError (String × Session) :=
  match s.storage with
  | none => .error .noProjectOpen
  | some st =>
    let (c, s1) := s.next_counter
    let result_name := "sql_result_" ++ natToString c
    let (_safe, st2) := st.execute_sql_to_table sql result_name
    .ok (result_name, { s1 with storage := some st2 })

/-- Translation of `RustoraSession::execute_sql_to_ipc` (session.rs lines
287 to 290). -/
def Session.execute_sql_to_ipc (s : Session) (sql : String) :
    Except RustoraError String :=
  match s.storage with
  | none => .error .noProjectOpen
  | some _ => .ok sql

/-- Translation of `RustoraSession::sort_dataset` (session.rs lines 297 to
334): persistent path materializes `<name>_sorted`; transient path registers
a new sorted frame under `<name>_sorted`; no counter use on either path. -/
def Session.sort_dataset (s : Session) (name : String) (columns : List String)
    (descending : List Bool) : Except RustoraError (String × Session) :=
  let transientPath : Except RustoraError (String × Session) :=
    match tlookup s.transient name with
    | some lf =>
      let new_name := name ++ "_sorted"
      .ok (new_name,
        { s with transient := tinsert s.transient new_name (.sorted lf columns descending) })
    | none => .error (.tableNotFound name)
  match s.storage with
  | some st =>
    if name ∈ st.list_tables then
      let result_name := name ++ "_sorted"
      let (_safe, st2) := st.execute_sql_to_table "ORDER BY" result_name
      .ok (result_name, { s with storage := some st2 })
    else transientPath
  | none => transientPath

/-- Translation of `RustoraSession::filter_dataset_sql` (session.rs lines
351 to 374): persistent-only; on a miss (no store or unknown table) the
fall-through error is a `Session` message, not `TableNotFound`. -/
def Session.filter_dataset_sql (s : Session) (name : String)
    (where_clause : String) : Except RustoraError (String × Session) :=
  let missError : Except RustoraError (String × Session) :=
    .error (.session ("SQL filter requires an active project. Table '" ++
      name ++ "' not found in DuckDB."))
  match s.storage with
  | some st =>
    if name ∈ st.list_tables then
      let (c, s1) := s.next_counter
      let result_name := name ++ "_filtered_" ++ natToString c
      let (_safe, st2) := st.execute_sql_to_table where_clause result_name
      .ok (result_name, { s1 with storage := some st2 })
    else missError
  | none => missError

/-- Translation of `RustoraSession::filter_dataset_structured` (session.rs
lines 377 to 384): compile the spec, then delegate to the raw-SQL filter. -/
def Session.filter_dataset_structured (s : Session) (name : String)
    (spec : FilterSpec) : Except RustoraError (String × Session) :=
  match spec.to_sql_where with
  | .error e => .error e
  | .ok where_clause => s.filter_dataset_sql name where_clause

/-- Translation of `RustoraSession::group_by` (session.rs lines 388 to 416):
persistent-only; the fall-through error is `TableNotFound`. -/
def Session.group_by (s : Session) (name : String)
    (_group_columns : List String) (_agg_exprs : List String) :
    Except RustoraError (String × Session) :=
  match s.storage with
  | some st =>
    if name ∈ st.list_tables then
      let (c, s1) := s.next_counter
      let result_name := name ++ "_grouped_" ++ natToString c
      let (_safe, st2) := st.execute_sql_to_table "GROUP BY" result_name
      .ok (result_name, { s1 with storage := some st2 })
    else .error (.tableNotFound name)
  | none => .error (.tableNotFound name)

/-- Translation of `RustoraSession::add_calculated_column` (session.rs lines
420 to 439): persistent-only; the fall-through error is `TableNotFound`. -/
def Session.add_calculated_column (s : Session) (name : String)
    (_expr : String) (_alias : String) :
    Except RustoraError (String × Session) :=
  match s.storage with
  | some st =>
    if name ∈ st.list_tables then
      let (c, s1) := s.next_counter
      let result_name := name ++ "_calc_" ++ natToString c
      let (_safe, st2) := st.execute_sql_to_table "SELECT" result_name
      .ok (result_name, { s1 with storage := some st2 })
    else .error (.tableNotFound name)
  | none => .error (.tableNotFound name)

/-- Translation of `RustoraSession::remove_dataset` (session.rs lines 555 to
564): drop the persistent table when present (`Ok(true)`), else remove the
transient entry and report whether one existed. -/
def Session.remove_dataset (s : Session) (name : String) :
    Except RustoraError (Bool × Session) :=
  match s.storage with
  | some st =>
    if name ∈ st.list_tables then
      .ok (true, { s with storage := some (st.drop_table name) })
    else
      .ok ((tlookup s.transient name).isSome,
        { s with transient := tremove s.transient name })
  | none =>
    .ok ((tlookup s.transient name).isSome,
      { s with transient := tremove s.transient name })

/-- Translation of `RustoraSession::register_lazy_frame` (session.rs lines
567 to 569). -/
def Session.register_lazy_frame (s : Session) (name : String)
    (lf : LazyFrame) : Session :=
  { s with transient := tinsert s.transient name lf }

/-- Whether `name` currently denotes a persistent table of the session. -/
def Session.persistentHas (s : Session) (name : String) : Bool :=
  match s.storage with
  | some st => decide (name ∈ st.list_tables)
  | none => false

/-- Whether `name` currently denotes a transient dataset of the session. -/
def Session.transientHas (s : Session) (name : String) : Bool :=
  (tlookup s.transient name).isSome

/-! ## Spec-side checkers

Definitions in this group follow the words of the specification (they are
not translations of repository code); they are compared against the
source-translated definitions above. -/

mutual

/-- Greedy lexer for the tail of a SQL single-quoted string literal, entered
just after the opening quote: a doubled quote stays inside the literal, a
lone quote closes it.  Returns true exactly when the input is the remainder
of one complete literal whose closing quote is the very last character, so a
true result means no character of the body can escape the literal. -/
def scanLitBody : List Char → Bool
  | [] => false
  | c :: rest => if c = '\'' then scanLitClose rest else scanLitBody rest

/-- Continuation of `scanLitBody` after reading a quote: end of input closes
the literal exactly at the end, a second quote is an escaped quote and the
scan continues, anything else means the literal closed early with trailing
characters. -/
def scanLitClose : List Char → Bool
  | [] => true
  | c2 :: rest2 => if c2 = '\'' then scanLitBody rest2 else false

end

/-- Whether a string is exactly one complete SQL single-quoted literal. -/
def isCompleteSqlStringLiteral (s : String) : Bool :=
  match s.data with
  | [] => false
  | c :: rest => c == '\'' && scanLitBody rest

/-- Character-level escaping map stated by the spec for LIKE values: quotes
doubled, the two wildcard characters backslash-escaped, everything else
kept. -/
def likeEscapeCharSpec (c : Char) : List Char :=
  if c = '\'' then ['\'', '\'']
  else if c = '%' then ['\\', '%']
  else if c = '_' then ['\\', '_']
  else [c]

/-- One-pass LIKE escaping as the spec states it (concatenation of the
per-character images). -/
def likeEscapeSpec : List Char → List Char
  | [] => []
  | c :: rest => likeEscapeCharSpec c ++ likeEscapeSpec rest

/-- SQL text of the six equality/ordering comparison operators (`none` for
the pattern and null operators). -/
def comparisonOpSql : FilterOperator → Option String
  | .equals => some " = "
  | .notEquals => some " != "
  | .greaterThan => some " > "
  | .greaterThanOrEqual => some " >= "
  | .lessThan => some " < "
  | .lessThanOrEqual => some " <= "
  | _ => none

/-- Validity of a column name under the allow-list, restating the checks of
`sanitize_column_name` as one boolean: byte length 1 to 256 and every
character allowed. -/
def columnOk (name : String) : Bool :=
  decide (1 ≤ name.utf8ByteSize) && decide (name.utf8ByteSize ≤ 256) &&
    name.data.all columnChar

/-! ## Helper lemmas -/

/-- Extensionality for the list-of-characters model of strings. -/
theorem strExt {a b : String} (h : a.data = b.data) : a = b := by
  cases a
  cases b
  exact congrArg String.mk h

/-- Appending strings appends their character lists. -/
theorem data_append (a b : String) : (a ++ b).data = a.data ++ b.data := rfl

/-- Quote-escaping a value and surrounding it with quotes lexes as one
complete SQL string literal: the closing quote is the last character and no
quote of the value closes the literal early. -/
theorem scanLitBody_escaped (l : List Char) :
    scanLitBody (replaceChar '\'' ['\'', '\''] l ++ ['\'']) = true := by
  induction l with
  | nil => rfl
  | cons c rest ih =>
    by_cases h : c = '\''
    · subst h
      simpa [replaceChar, scanLitBody, scanLitClose] using ih
    · simpa [replaceChar, scanLitBody, h] using ih

/-- Quote-escaping doubles the number of single quotes. -/
theorem count_escape_quotes (l : List Char) :
    (replaceChar '\'' ['\'', '\''] l).count '\'' = 2 * l.count '\'' := by
  induction l with
  | nil => rfl
  | cons c rest ih =>
    by_cases h : c = '\''
    · subst h
      simp [replaceChar, List.count_cons, ih]
      omega
    · simp [replaceChar, List.count_cons, h, ih]

/-- The three sequential replacement passes of `escape_like` implement the
one-pass character map stated by the spec. -/
theorem escape_like_data (v : String) :
    (escape_like v).data = likeEscapeSpec v.data := by
  show replaceChar '_' ['\\', '_']
      (replaceChar '%' ['\\', '%'] (replaceChar '\'' ['\'', '\''] v.data)) =
    likeEscapeSpec v.data
  induction v.data with
  | nil => rfl
  | cons c rest ih =>
    by_cases h1 : c = '\''
    · subst h1
      simp [replaceChar, likeEscapeSpec, likeEscapeCharSpec, ih]
    · by_cases h2 : c = '%'
      · subst h2
        simp [replaceChar, likeEscapeSpec, likeEscapeCharSpec, ih]
      · by_cases h3 : c = '_'
        · subst h3
          simp [replaceChar, likeEscapeSpec, likeEscapeCharSpec, ih]
        · simp [replaceChar, likeEscapeSpec, likeEscapeCharSpec, h1, h2, h3, ih]

/-- A quoted escaped value is one complete SQL string literal. -/
theorem quoted_escape_complete (v : String) :
    isCompleteSqlStringLiteral ("'" ++ escape_sql_string v ++ "'") = true := by
  have hdata : ("'" ++ escape_sql_string v ++ "'").data =
      '\'' :: (replaceChar '\'' ['\'', '\''] v.data ++ ['\'']) := rfl
  simp [isCompleteSqlStringLiteral, hdata, scanLitBody_escaped]

/-! ## Claim C1 -/

/-- Claim C1: for every filter condition with operator Equals, NotEquals,
GreaterThan, GreaterThanOrEqual, LessThan or LessThanOrEqual (and a valid
column), the compiled SQL is the quoted column, the operator symbol, and
`format_comparison_value` of the value; that function emits the value
unquoted exactly when the whole value parses as a double-precision number
and otherwise emits a single-quoted literal with every embedded quote
doubled (quote count doubled, and the result lexes as one complete literal,
so no unescaped value quote reaches the SQL); in particular Equals with
value `'; DROP TABLE x; --` compiles to a comparison against that literal
string with the quote doubled. -/
theorem C1_comparison_values :
    (∀ (cond : FilterCondition) (sym col : String),
      comparisonOpSql cond.operator = some sym →
      sanitize_column_name cond.column = .ok col →
      condition_to_sql cond = .ok (col ++ sym ++ format_comparison_value cond.value)) ∧
    (∀ v : String, is_numeric v = true → format_comparison_value v = v) ∧
    (∀ v : String, is_numeric v = false →
      format_comparison_value v = "'" ++ escape_sql_string v ++ "'" ∧
      (escape_sql_string v).data.count '\'' = 2 * v.data.count '\'' ∧
      isCompleteSqlStringLiteral (format_comparison_value v) = true) ∧
    FilterSpec.to_sql_where ⟨[⟨"name", .equals, "'; DROP TABLE x; --"⟩], .and⟩ =
      .ok "\"name\" = '''; DROP TABLE x; --'" := by
  refine ⟨?_, ?_, ?_, by decide⟩
  · rintro ⟨column, op, value⟩ sym col hop hcol
    cases op <;> simp only [comparisonOpSql, Option.some.injEq, reduceCtorEq] at hop
    case equals =>
      subst hop
      by_cases hn : is_numeric value
      · simp [condition_to_sql, hcol, hn, format_comparison_value]
      · have hsplit : (" = '" : String) = " = " ++ "'" := by decide
        simp [condition_to_sql, hcol, hn, format_comparison_value]
        rw [hsplit]
        apply strExt
        simp [data_append, List.append_assoc]
    case notEquals =>
      subst hop
      by_cases hn : is_numeric value
      · simp [condition_to_sql, hcol, hn, format_comparison_value]
      · have hsplit : (" != '" : String) = " != " ++ "'" := by decide
        simp [condition_to_sql, hcol, hn, format_comparison_value]
        rw [hsplit]
        apply strExt
        simp [data_append, List.append_assoc]
    case greaterThan =>
      subst hop
      simp [condition_to_sql, hcol]
    case greaterThanOrEqual =>
      subst hop
      simp [condition_to_sql, hcol]
    case lessThan =>
      subst hop
      simp [condition_to_sql, hcol]
    case lessThanOrEqual =>
      subst hop
      simp [condition_to_sql, hcol]
  · intro v hv
    simp [format_comparison_value, hv]
  · intro v hv
    refine ⟨by simp [format_comparison_value, hv], ?_, ?_⟩
    · exact count_escape_quotes v.data
    · simp [format_comparison_value, hv, quoted_escape_complete]

/-- Witness for C1: numeric value emitted unquoted under GreaterThan, and a
non-numeric date value becomes a complete quoted literal. -/
theorem C1_comparison_values_wit :
    condition_to_sql ⟨"age", .greaterThan, "30"⟩ =
      .ok ("\"age\"" ++ " > " ++ format_comparison_value "30") ∧
    format_comparison_value "30" = "30" ∧
    isCompleteSqlStringLiteral (format_comparison_value "2024-01-01") = true := by
  refine ⟨?_, ?_, ?_⟩
  · exact C1_comparison_values.1 ⟨"age", .greaterThan, "30"⟩ " > " "\"age\""
      (by decide) (by decide)
  · exact C1_comparison_values.2.1 "30" (by decide)
  · exact (C1_comparison_values.2.2.1 "2024-01-01" (by decide)).2.2

/-! ## Claim C2 -/

/-- Claim C2: for Contains, NotContains, StartsWith and EndsWith the
compiled SQL is a LIKE (or NOT LIKE) pattern whose value part is
`escape_like` of the value, with the `%` wildcard added exactly at the
positions the operator requires (both ends, both ends, trailing, leading
respectively); `escape_like` doubles embedded single quotes and
backslash-escapes every `%` and `_` of the value (the one-pass character map
`likeEscapeSpec`); in particular Contains with value `100%_done` compiles to
a pattern in which the wildcard characters of the value are escaped. -/
theorem C2_like_patterns :
    (∀ (cond : FilterCondition) (col : String),
      sanitize_column_name cond.column = .ok col →
      (cond.operator = .contains →
        condition_to_sql cond = .ok (col ++ " LIKE '%" ++ escape_like cond.value ++ "%'")) ∧
      (cond.operator = .notContains →
        condition_to_sql cond = .ok (col ++ " NOT LIKE '%" ++ escape_like cond.value ++ "%'")) ∧
      (cond.operator = .startsWith →
        condition_to_sql cond = .ok (col ++ " LIKE '" ++ escape_like cond.value ++ "%'")) ∧
      (cond.operator = .endsWith →
        condition_to_sql cond = .ok (col ++ " LIKE '%" ++ escape_like cond.value ++ "'"))) ∧
    (∀ v : String, (escape_like v).data = likeEscapeSpec v.data) ∧
    FilterSpec.to_sql_where ⟨[⟨"name", .contains, "100%_done"⟩], .and⟩ =
      .ok "\"name\" LIKE '%100\\%\\_done%'" := by
  refine ⟨?_, escape_like_data, by decide⟩
  rintro ⟨column, op, value⟩ col hcol
  refine ⟨?_, ?_, ?_, ?_⟩ <;> rintro rfl <;> simp [condition_to_sql, hcol]

/-- Witness for C2 at a concrete Contains condition. -/
theorem C2_like_patterns_wit :
    condition_to_sql ⟨"name", .contains, "100%_done"⟩ =
      .ok ("\"name\"" ++ " LIKE '%" ++ escape_like "100%_done" ++ "%'") := by
  exact (C2_like_patterns.1 ⟨"name", .contains, "100%_done"⟩ "\"name\""
    (by decide)).1 rfl

/-! ## Claim C3 -/

/-- Binding an error propagates it (computation rule of the `Except`
monad, stated for rewriting). -/
@[simp]
theorem except_bind_error {α β : Type} (e : RustoraError)
    (f : α → Except RustoraError β) :
    ((Except.error e : Except RustoraError α) >>= f) = Except.error e := rfl

/-- Binding a success applies the continuation (computation rule of the
`Except` monad, stated for rewriting). -/
@[simp]
theorem except_bind_ok {α β : Type} (a : α) (f : α → Except RustoraError β) :
    ((Except.ok a : Except RustoraError α) >>= f) = f a := rfl

/-- Mapping over an error propagates it. -/
@[simp]
theorem except_map_error {α β : Type} (e : RustoraError) (f : α → β) :
    (f <$> (Except.error e : Except RustoraError α)) = Except.error e := rfl

/-- Mapping over a success applies the function. -/
@[simp]
theorem except_map_ok {α β : Type} (a : α) (f : α → β) :
    (f <$> (Except.ok a : Except RustoraError α)) = Except.ok (f a) := rfl

/-- Success form of `sanitize_column_name` on a valid column. -/
theorem sanitize_ok_of_columnOk {name : String} (h : columnOk name = true) :
    sanitize_column_name name = .ok ("\"" ++ name ++ "\"") := by
  simp only [columnOk, Bool.and_eq_true, decide_eq_true_eq] at h
  obtain ⟨⟨h1, h2⟩, h3⟩ := h
  unfold sanitize_column_name
  have hd : (decide (name.utf8ByteSize = 0) || decide (name.utf8ByteSize > 256)) = false := by
    simp only [Bool.or_eq_false_iff, decide_eq_false_iff_not]
    omega
  rw [hd, h3]
  simp

/-- Error form of `sanitize_column_name` on an invalid column: length
violations fail with `ColumnNotFound`, character violations (at a valid
length) fail with `Session`. -/
theorem sanitize_error_of_not_columnOk {name : String} (h : columnOk name = false) :
    (¬(1 ≤ name.utf8ByteSize ∧ name.utf8ByteSize ≤ 256) ∧
      sanitize_column_name name = .error (.columnNotFound name)) ∨
    ((1 ≤ name.utf8ByteSize ∧ name.utf8ByteSize ≤ 256) ∧
      name.data.all columnChar = false ∧
      sanitize_column_name name = .error (.session ("Invalid column name: " ++ name))) := by
  by_cases hlen : 1 ≤ name.utf8ByteSize ∧ name.utf8ByteSize ≤ 256
  · right
    have hall : name.data.all columnChar = false := by
      by_contra hc
      have hc2 : name.data.all columnChar = true := by simpa using hc
      have hco : columnOk name = true := by
        simp only [columnOk, Bool.and_eq_true, decide_eq_true_eq]
        exact ⟨⟨hlen.1, hlen.2⟩, hc2⟩
      rw [hco] at h
      exact absurd h (by simp)
    refine ⟨hlen, hall, ?_⟩
    unfold sanitize_column_name
    have hd : (decide (name.utf8ByteSize = 0) || decide (name.utf8ByteSize > 256)) = false := by
      simp only [Bool.or_eq_false_iff, decide_eq_false_iff_not]
      omega
    rw [hd, hall]
    simp
  · left
    refine ⟨hlen, ?_⟩
    unfold sanitize_column_name
    have hd : (decide (name.utf8ByteSize = 0) || decide (name.utf8ByteSize > 256)) = true := by
      simp only [Bool.or_eq_true, decide_eq_true_eq]
      omega
    rw [hd]
    simp

/-- A condition with an invalid column fails with the sanitization error. -/
theorem condition_to_sql_error_of_not_columnOk (cond : FilterCondition)
    (h : columnOk cond.column = false) :
    ∃ e, condition_to_sql cond = .error e ∧
      sanitize_column_name cond.column = .error e := by
  have hform := sanitize_error_of_not_columnOk h
  rcases cond with ⟨column, op, value⟩
  rcases hform with ⟨_, herr⟩ | ⟨_, _, herr⟩
  · exact ⟨_, by simp only [condition_to_sql, herr, except_bind_error], herr⟩
  · exact ⟨_, by simp only [condition_to_sql, herr, except_bind_error], herr⟩

/-- A condition with a valid column always compiles. -/
theorem condition_to_sql_ok_of_columnOk (cond : FilterCondition)
    (h : columnOk cond.column = true) :
    ∃ sql, condition_to_sql cond = .ok sql := by
  have hs := sanitize_ok_of_columnOk h
  rcases cond with ⟨column, op, value⟩
  cases op <;> by_cases hn : is_numeric value <;>
    simp [condition_to_sql, hs, hn]

/-- A compilation error is exactly the sanitization error of the column. -/
theorem condition_to_sql_error_eq (cond : FilterCondition) (e : RustoraError)
    (h : condition_to_sql cond = .error e) :
    columnOk cond.column = false ∧ sanitize_column_name cond.column = .error e := by
  cases hs : sanitize_column_name cond.column with
  | error e2 =>
    have he : e2 = e := by
      rcases cond with ⟨column, op, value⟩
      simpa [condition_to_sql, hs] using h
    subst he
    refine ⟨?_, rfl⟩
    by_contra hc
    have hc2 : columnOk cond.column = true := by simpa using hc
    rw [sanitize_ok_of_columnOk hc2] at hs
    exact absurd hs (by simp)
  | ok col =>
    exfalso
    rcases cond with ⟨column, op, value⟩
    cases op <;> by_cases hn : is_numeric value <;>
      simp [condition_to_sql, hs, hn] at h

/-- The condition list collects successfully exactly when every column is
valid. -/
theorem mapCollect_ok_iff (conds : List FilterCondition) :
    (∃ outs, mapCollect condition_to_sql conds = .ok outs) ↔
      ∀ c ∈ conds, columnOk c.column = true := by
  induction conds with
  | nil => simp [mapCollect]
  | cons c rest ih =>
    constructor
    · rintro ⟨outs, houts⟩
      cases hc : condition_to_sql c with
      | error e => simp [mapCollect, hc] at houts
      | ok s =>
        cases hr : mapCollect condition_to_sql rest with
        | error e => simp [mapCollect, hc, hr] at houts
        | ok ss =>
          intro x hx
          rcases List.mem_cons.mp hx with hx | hx
          · subst hx
            by_contra hbad
            have hbad2 : columnOk x.column = false := by simpa using hbad
            obtain ⟨e, he, _⟩ := condition_to_sql_error_of_not_columnOk x hbad2
            rw [he] at hc
            exact absurd hc (by simp)
          · exact (ih.mp ⟨ss, hr⟩) x hx
    · intro hall
      obtain ⟨s, hs⟩ := condition_to_sql_ok_of_columnOk c (hall c (by simp))
      obtain ⟨ss, hss⟩ := ih.mpr (fun x hx => hall x (by simp [hx]))
      exact ⟨s :: ss, by simp [mapCollect, hs, hss]⟩

/-- A collection error is the compilation error of some condition of the
list (in fact the first failing one). -/
theorem mapCollect_error_mem (conds : List FilterCondition) (e : RustoraError)
    (h : mapCollect condition_to_sql conds = .error e) :
    ∃ c ∈ conds, columnOk c.column = false ∧
      sanitize_column_name c.column = .error e := by
  induction conds with
  | nil => simp [mapCollect] at h
  | cons c rest ih =>
    cases hc : condition_to_sql c with
    | error e2 =>
      have he : e2 = e := by simpa [mapCollect, hc] using h
      subst he
      obtain ⟨hfalse, hsan⟩ := condition_to_sql_error_eq c _ hc
      exact ⟨c, by simp, hfalse, hsan⟩
    | ok s =>
      cases hr : mapCollect condition_to_sql rest with
      | error e2 =>
        have he : e2 = e := by simpa [mapCollect, hc, hr] using h
        subst he
        obtain ⟨x, hx, hprop⟩ := ih hr
        exact ⟨x, by simp [hx], hprop⟩
      | ok ss => simp [mapCollect, hc, hr] at h

/-- Counterexample for C3 as stated: the empty-list failure and the failure
for a column with a disallowed character are the same error constructor
(`Session`), while a length violation of the allow-list fails with the
distinct constructor `ColumnNotFound` — so no assignment of the spec's
`InvalidFilter`/`InvalidColumn` kinds to code error kinds makes
"InvalidFilter exactly when empty" and "InvalidColumn exactly when the
allow-list is violated" both true. -/
theorem C3_error_kind_cex :
    FilterSpec.to_sql_where ⟨[], .and⟩ =
      .error (.session "Filter must have at least one condition") ∧
    FilterSpec.to_sql_where ⟨[⟨"a;", .equals, "v"⟩], .and⟩ =
      .error (.session "Invalid column name: a;") ∧
    FilterSpec.to_sql_where ⟨[⟨"", .equals, "v"⟩], .and⟩ =
      .error (.columnNotFound "") := by
  exact ⟨by decide, by decide, by decide⟩

/-- Claim C3 as amended: compilation fails with the `Session` kind when the
condition list is empty; for a nonempty list it succeeds exactly when every
column passes the allow-list (letters, digits, underscore, space, dot;
byte length 1 to 256), in which case the compiled conditions are joined with
" AND " or " OR " per the logic; and any failure on a nonempty list reports
the sanitization error of a failing column — `ColumnNotFound` for a length
violation, `Session "Invalid column name: _"` for a character violation. -/
theorem C3_error_kinds_amended (spec : FilterSpec) :
    (spec.conditions = [] →
      spec.to_sql_where = .error (.session "Filter must have at least one condition")) ∧
    (spec.conditions ≠ [] →
      ((∃ sql, spec.to_sql_where = .ok sql) ↔
        ∀ c ∈ spec.conditions, columnOk c.column = true)) ∧
    (∀ clauses, spec.conditions ≠ [] →
      mapCollect condition_to_sql spec.conditions = .ok clauses →
      spec.to_sql_where = .ok (String.intercalate
        (match spec.logic with
         | .and => " AND "
         | .or => " OR ") clauses)) ∧
    (∀ e, spec.conditions ≠ [] → spec.to_sql_where = .error e →
      ∃ c ∈ spec.conditions, columnOk c.column = false ∧
        sanitize_column_name c.column = .error e ∧
        ((¬(1 ≤ c.column.utf8ByteSize ∧ c.column.utf8ByteSize ≤ 256) ∧
            e = .columnNotFound c.column) ∨
         ((1 ≤ c.column.utf8ByteSize ∧ c.column.utf8ByteSize ≤ 256) ∧
            c.column.data.all columnChar = false ∧
            e = .session ("Invalid column name: " ++ c.column)))) := by
  have hne_empty : spec.conditions ≠ [] → spec.conditions.isEmpty = false := by
    intro h
    cases hc : spec.conditions with
    | nil => exact absurd hc h
    | cons a l => rfl
  refine ⟨?_, ?_, ?_, ?_⟩
  · intro h
    simp [FilterSpec.to_sql_where, h]
  · intro hne
    rw [← mapCollect_ok_iff]
    constructor
    · rintro ⟨sql, hsql⟩
      cases hm : mapCollect condition_to_sql spec.conditions with
      | error e =>
        rw [FilterSpec.to_sql_where, if_neg (by simp [hne_empty hne])] at hsql
        rw [hm] at hsql
        exact absurd hsql (by simp)
      | ok outs => exact ⟨outs, rfl⟩
    · rintro ⟨outs, houts⟩
      refine ⟨String.intercalate
        (match spec.logic with
         | .and => " AND "
         | .or => " OR ") outs, ?_⟩
      rw [FilterSpec.to_sql_where, if_neg (by simp [hne_empty hne]), houts]
      rfl
  · intro clauses hne hm
    rw [FilterSpec.to_sql_where, if_neg (by simp [hne_empty hne]), hm]
    rfl
  · intro e hne herr
    rw [FilterSpec.to_sql_where, if_neg (by simp [hne_empty hne])] at herr
    cases hm : mapCollect condition_to_sql spec.conditions with
    | ok outs =>
      rw [hm] at herr
      exact absurd herr (by simp)
    | error e2 =>
      rw [hm] at herr
      have he : e2 = e := by simpa using herr
      subst he
      obtain ⟨c, hmem, hfalse, hsan⟩ := mapCollect_error_mem _ _ hm
      refine ⟨c, hmem, hfalse, hsan, ?_⟩
      rcases sanitize_error_of_not_columnOk hfalse with ⟨hlen, hform⟩ | ⟨hlen, hall, hform⟩
      · left
        rw [hform] at hsan
        exact ⟨hlen, by simpa using hsan.symm⟩
      · right
        rw [hform] at hsan
        exact ⟨hlen, hall, by simpa using hsan.symm⟩

/-- Witness for the amended C3: a valid one-condition spec compiles, and a
two-condition spec joins with " AND ". -/
theorem C3_error_kinds_amended_wit :
    (∃ sql, FilterSpec.to_sql_where ⟨[⟨"city", .equals, "Boston"⟩], .and⟩ = .ok sql) ∧
    FilterSpec.to_sql_where
      ⟨[⟨"age", .greaterThan, "25"⟩, ⟨"city", .equals, "Boston"⟩], .and⟩ =
      .ok (String.intercalate " AND " ["\"age\" > 25", "\"city\" = 'Boston'"]) := by
  constructor
  · exact ((C3_error_kinds_amended ⟨[⟨"city", .equals, "Boston"⟩], .and⟩).2.1
      (by decide)).mpr (by decide)
  · exact (C3_error_kinds_amended
      ⟨[⟨"age", .greaterThan, "25"⟩, ⟨"city", .equals, "Boston"⟩], .and⟩).2.2.1
      ["\"age\" > 25", "\"city\" = 'Boston'"] (by decide) (by decide)

/-! ## Claim C4 -/

/-- Claim C4 fails on the code: the storage layer creates the table under
the sanitized name and returns that name, but `RustoraSession::import_file`
discards it and returns the originally requested name.  For requested name
`my-data` the storage creates (and returns) `my_data`, the session returns
`my-data`, and resolving the session's returned name afterwards fails —
the returned name does not name the table that was created. -/
theorem C4_returned_name_divergence :
    DuckStorage.import_file { db_path := ":memory:", tables := [] }
        ⟨"data.csv", true, "csv", "data"⟩ "my-data" =
      .ok ("my_data", { db_path := ":memory:", tables := ["my_data"] }) ∧
    sanitize_table_name "my-data" = "my_data" ∧
    Session.new.import_file ⟨"data.csv", true, "csv", "data"⟩ (some "my-data") =
      .ok ("my-data",
        { storage := some { db_path := ":memory:", tables := ["my_data"] },
          transient := [], counter := 0 }) ∧
    ("my-data" : String) ≠ "my_data" ∧
    Session.get_preview_ipc
      { storage := some { db_path := ":memory:", tables := ["my_data"] },
        transient := [], counter := 0 } "my-data" 10 =
      .error (.tableNotFound "my-data") := by
  exact ⟨by decide, by decide, by decide, by decide, by decide⟩

/-! ## Claim C5 -/

/-- Claim C5: every read operation (preview, chunk, row count, dataset
info) resolves a dataset name persistent-first: when the name is a table of
the active store the persistent substrate answers; otherwise, when the name
is in the transient map, the transient graph answers; otherwise the
operation fails with the dataset-not-found error.  In particular a name
present in both substrates is always answered persistently. -/
theorem C5_resolution_order (s : Session) (name : String) (off lim : Nat) :
    (s.persistentHas name = true →
      s.get_preview_ipc name lim = .ok (.storageChunk name 0 lim) ∧
      s.get_chunk_ipc name off lim = .ok (.storageChunk name off lim) ∧
      s.get_row_count name = .ok (.fromTable name) ∧
      s.dataset_info name = .ok (.fromTable name)) ∧
    (∀ lf, s.persistentHas name = false → tlookup s.transient name = some lf →
      s.get_preview_ipc name lim = .ok (.transientSlice lf 0 lim) ∧
      s.get_chunk_ipc name off lim = .ok (.transientSlice lf off lim) ∧
      s.get_row_count name = .ok (.fromFrame lf) ∧
      s.dataset_info name = .ok (.fromFrame name lf)) ∧
    (s.persistentHas name = false → tlookup s.transient name = none →
      s.get_preview_ipc name lim = .error (.tableNotFound name) ∧
      s.get_chunk_ipc name off lim = .error (.tableNotFound name) ∧
      s.get_row_count name = .error (.tableNotFound name) ∧
      s.dataset_info name = .error (.tableNotFound name)) := by
  refine ⟨?_, ?_, ?_⟩
  · intro hp
    cases hs : s.storage with
    | none =>
      rw [Session.persistentHas, hs] at hp
      exact absurd hp (by simp)
    | some st =>
      rw [Session.persistentHas, hs] at hp
      have hmem : name ∈ st.list_tables := of_decide_eq_true hp
      exact ⟨by simp [Session.get_preview_ipc, hs, hmem],
        by simp [Session.get_chunk_ipc, hs, hmem],
        by simp [Session.get_row_count, hs, hmem],
        by simp [Session.dataset_info, hs, hmem]⟩
  · intro lf hp hlk
    cases hs : s.storage with
    | none =>
      exact ⟨by simp [Session.get_preview_ipc, hs, hlk],
        by simp [Session.get_chunk_ipc, hs, hlk],
        by simp [Session.get_row_count, hs, hlk],
        by simp [Session.dataset_info, hs, hlk]⟩
    | some st =>
      rw [Session.persistentHas, hs] at hp
      have hmem : name ∉ st.list_tables := of_decide_eq_false hp
      exact ⟨by simp [Session.get_preview_ipc, hs, hmem, hlk],
        by simp [Session.get_chunk_ipc, hs, hmem, hlk],
        by simp [Session.get_row_count, hs, hmem, hlk],
        by simp [Session.dataset_info, hs, hmem, hlk]⟩
  · intro hp hlk
    cases hs : s.storage with
    | none =>
      exact ⟨by simp [Session.get_preview_ipc, hs, hlk],
        by simp [Session.get_chunk_ipc, hs, hlk],
        by simp [Session.get_row_count, hs, hlk],
        by simp [Session.dataset_info, hs, hlk]⟩
    | some st =>
      rw [Session.persistentHas, hs] at hp
      have hmem : name ∉ st.list_tables := of_decide_eq_false hp
      exact ⟨by simp [Session.get_preview_ipc, hs, hmem, hlk],
        by simp [Session.get_chunk_ipc, hs, hmem, hlk],
        by simp [Session.get_row_count, hs, hmem, hlk],
        by simp [Session.dataset_info, hs, hmem, hlk]⟩

/-- Witness for C5: a name present in both substrates is answered by the
persistent store, and after the table is gone the same name is answered by
the transient graph. -/
theorem C5_resolution_order_wit :
    Session.get_preview_ipc
      { storage := some { db_path := ":memory:", tables := ["t"] },
        transient := [("t", .registered 0)], counter := 0 } "t" 5 =
      .ok (.storageChunk "t" 0 5) ∧
    Session.get_row_count
      { storage := some { db_path := ":memory:", tables := [] },
        transient := [("t", .registered 0)], counter := 0 } "t" =
      .ok (.fromFrame (.registered 0)) := by
  constructor
  · exact ((C5_resolution_order
      { storage := some { db_path := ":memory:", tables := ["t"] },
        transient := [("t", .registered 0)], counter := 0 } "t" 0 5).1
      (by decide)).1
  · exact (((C5_resolution_order
      { storage := some { db_path := ":memory:", tables := [] },
        transient := [("t", .registered 0)], counter := 0 } "t" 0 5).2.1
      (.registered 0) (by decide) (by decide)).2.2).1

/-! ## Claim C6 -/

/-- A digit character recovers its digit. -/
theorem digitVal_digitChar {d : Nat} (h : d < 10) : digitVal (digitChar d) = d := by
  interval_cases d <;> rfl

/-- The fueled digit renderer is inverted by `digitsValRev` whenever the
fuel covers the number. -/
theorem digitsValRev_aux (fuel : Nat) :
    ∀ n : Nat, n ≤ fuel → digitsValRev (natDigitsRevAux fuel n) = n := by
  induction fuel with
  | zero =>
    intro n hn
    have hn0 : n = 0 := by omega
    subst hn0
    rfl
  | succ f ih =>
    intro n hn
    cases n with
    | zero => rfl
    | succ m =>
      rw [natDigitsRevAux, digitsValRev]
      have hlt : (m + 1) / 10 < m + 1 := Nat.div_lt_self (by omega) (by omega)
      rw [digitVal_digitChar (Nat.mod_lt _ (by omega))]
      rw [ih ((m + 1) / 10) (by omega)]
      omega

/-- The digit rendering of a number is inverted by `digitsValRev`. -/
theorem digitsValRev_natDigitsRev (n : Nat) :
    digitsValRev (natDigitsRev n) = n :=
  digitsValRev_aux n n (Nat.le_refl n)

/-- The decimal renderer is injective. -/
theorem natToString_inj {a b : Nat} (h : natToString a = natToString b) :
    a = b := by
  have zero_case : ∀ c : Nat, c ≠ 0 → natToString c ≠ "0" := by
    intro c hc hstr
    rw [natToString, if_neg hc] at hstr
    have hd : (natDigitsRev c).reverse = ['0'] := congrArg String.data hstr
    have hrc : natDigitsRev c = ['0'] := by
      have := congrArg List.reverse hd
      simpa using this
    have hv := digitsValRev_natDigitsRev c
    rw [hrc] at hv
    exact hc (by simpa [digitsValRev, digitVal] using hv.symm)
  have h0 : natToString 0 = "0" := by rw [natToString, if_pos rfl]
  by_cases ha : a = 0 <;> by_cases hb : b = 0
  · omega
  · subst ha
    rw [h0] at h
    exact absurd h.symm (zero_case b hb)
  · subst hb
    rw [h0] at h
    exact absurd h (zero_case a ha)
  · rw [natToString, if_neg ha, natToString, if_neg hb] at h
    have hd : (natDigitsRev a).reverse = (natDigitsRev b).reverse :=
      congrArg String.data h
    have h2 : natDigitsRev a = natDigitsRev b := by
      have := congrArg List.reverse hd
      simpa using this
    have hva := digitsValRev_natDigitsRev a
    rw [h2, digitsValRev_natDigitsRev b] at hva
    exact hva.symm

/-- Appending different counter renderings to a common base gives different
names. -/
theorem append_natToString_ne (base : String) {a b : Nat} (h : a ≠ b) :
    base ++ natToString a ≠ base ++ natToString b := by
  intro heq
  apply h
  apply natToString_inj
  apply strExt
  have hd := congrArg String.data heq
  rw [data_append, data_append] at hd
  exact List.append_cancel_left hd

/-- Success shape of `filter_dataset_sql`: the new name carries the
incremented counter, which is stored back in the session. -/
theorem filter_sql_shape {s s' : Session} {name w n : String}
    (h : s.filter_dataset_sql name w = .ok (n, s')) :
    n = name ++ "_filtered_" ++ natToString (s.counter + 1) ∧
    s'.counter = s.counter + 1 := by
  cases hs : s.storage with
  | none => simp [Session.filter_dataset_sql, hs] at h
  | some st =>
    by_cases hmem : name ∈ st.list_tables
    · simp only [Session.filter_dataset_sql, hs, hmem, if_true,
        Session.next_counter, DuckStorage.execute_sql_to_table,
        Except.ok.injEq, Prod.mk.injEq] at h
      obtain ⟨h1, h2⟩ := h
      exact ⟨h1.symm, by rw [← h2]⟩
    · simp [Session.filter_dataset_sql, hs, hmem] at h

/-- Success shape of `group_by`. -/
theorem group_by_shape {s s' : Session} {name n : String}
    {gc ae : List String} (h : s.group_by name gc ae = .ok (n, s')) :
    n = name ++ "_grouped_" ++ natToString (s.counter + 1) ∧
    s'.counter = s.counter + 1 := by
  cases hs : s.storage with
  | none => simp [Session.group_by, hs] at h
  | some st =>
    by_cases hmem : name ∈ st.list_tables
    · simp only [Session.group_by, hs, hmem, if_true,
        Session.next_counter, DuckStorage.execute_sql_to_table,
        Except.ok.injEq, Prod.mk.injEq] at h
      obtain ⟨h1, h2⟩ := h
      exact ⟨h1.symm, by rw [← h2]⟩
    · simp [Session.group_by, hs, hmem] at h

/-- Success shape of `add_calculated_column`. -/
theorem add_calc_shape {s s' : Session} {name e al n : String}
    (h : s.add_calculated_column name e al = .ok (n, s')) :
    n = name ++ "_calc_" ++ natToString (s.counter + 1) ∧
    s'.counter = s.counter + 1 := by
  cases hs : s.storage with
  | none => simp [Session.add_calculated_column, hs] at h
  | some st =>
    by_cases hmem : name ∈ st.list_tables
    · simp only [Session.add_calculated_column, hs, hmem, if_true,
        Session.next_counter, DuckStorage.execute_sql_to_table,
        Except.ok.injEq, Prod.mk.injEq] at h
      obtain ⟨h1, h2⟩ := h
      exact ⟨h1.symm, by rw [← h2]⟩
    · simp [Session.add_calculated_column, hs, hmem] at h

/-- Success shape of `execute_sql`. -/
theorem execute_sql_shape {s s' : Session} {sql n : String}
    (h : s.execute_sql sql = .ok (n, s')) :
    n = "sql_result_" ++ natToString (s.counter + 1) ∧
    s'.counter = s.counter + 1 := by
  cases hs : s.storage with
  | none => simp [Session.execute_sql, hs] at h
  | some st =>
    simp only [Session.execute_sql, hs, Session.next_counter,
      DuckStorage.execute_sql_to_table, Except.ok.injEq, Prod.mk.injEq] at h
    obtain ⟨h1, h2⟩ := h
    exact ⟨h1.symm, by rw [← h2]⟩

/-- Success shape of `import_file` without an explicit table name. -/
theorem import_none_shape {s s' : Session} {f : SourceFile} {n : String}
    (h : s.import_file f none = .ok (n, s')) :
    n = f.stem ++ "_" ++ natToString (s.counter + 1) ∧
    s'.counter = s.counter + 1 := by
  cases hs : s.storage with
  | none => simp [Session.import_file, hs] at h
  | some st =>
    simp only [Session.import_file, hs, Session.generate_name,
      Session.next_counter] at h
    cases hi : DuckStorage.import_file st f
        (f.stem ++ "_" ++ natToString (s.counter + 1)) with
    | error e =>
      rw [hi] at h
      simp at h
    | ok pair =>
      obtain ⟨sn, st2⟩ := pair
      rw [hi] at h
      simp only [Except.ok.injEq, Prod.mk.injEq] at h
      obtain ⟨h1, h2⟩ := h
      exact ⟨h1.symm, by rw [← h2]⟩

/-- Success shape of `sort_dataset`: the fixed suffix, no counter use. -/
theorem sort_shape {s s' : Session} {name n : String} {cols : List String}
    {desc : List Bool} (h : s.sort_dataset name cols desc = .ok (n, s')) :
    n = name ++ "_sorted" := by
  cases hs : s.storage with
  | none =>
    cases hlk : tlookup s.transient name with
    | none => simp [Session.sort_dataset, hs, hlk] at h
    | some lf =>
      simp only [Session.sort_dataset, hs, hlk, Except.ok.injEq,
        Prod.mk.injEq] at h
      exact h.1.symm
  | some st =>
    by_cases hmem : name ∈ st.list_tables
    · simp only [Session.sort_dataset, hs, hmem, if_true,
        DuckStorage.execute_sql_to_table, Except.ok.injEq, Prod.mk.injEq] at h
      exact h.1.symm
    · cases hlk : tlookup s.transient name with
      | none => simp [Session.sort_dataset, hs, hmem, hlk] at h
      | some lf =>
        simp only [Session.sort_dataset, hs, hmem, if_false, hlk,
          Except.ok.injEq, Prod.mk.injEq] at h
        exact h.1.symm

/-- Claim C6: the name counter strictly increases on every use and never
repeats a value, so running the same transformation twice on the same
source with the same inputs yields two distinct names for every
counter-suffixed format (filtered, grouped, calc, sql_result, file-stem
import) — while sort always produces the fixed name `<name>_sorted`, so a
second sort of the same source reuses exactly the same name. -/
theorem C6_generated_names :
    (∀ s : Session,
      (s.next_counter).1 = s.counter + 1 ∧
      (s.next_counter).2.counter = s.counter + 1) ∧
    (∀ (s s1 s2 : Session) (name w1 w2 n1 n2 : String),
      s.filter_dataset_sql name w1 = .ok (n1, s1) →
      s1.filter_dataset_sql name w2 = .ok (n2, s2) → n1 ≠ n2) ∧
    (∀ (s s1 s2 : Session) (name n1 n2 : String) (g1 g2 a1 a2 : List String),
      s.group_by name g1 a1 = .ok (n1, s1) →
      s1.group_by name g2 a2 = .ok (n2, s2) → n1 ≠ n2) ∧
    (∀ (s s1 s2 : Session) (name e1 e2 al1 al2 n1 n2 : String),
      s.add_calculated_column name e1 al1 = .ok (n1, s1) →
      s1.add_calculated_column name e2 al2 = .ok (n2, s2) → n1 ≠ n2) ∧
    (∀ (s s1 s2 : Session) (sql1 sql2 n1 n2 : String),
      s.execute_sql sql1 = .ok (n1, s1) →
      s1.execute_sql sql2 = .ok (n2, s2) → n1 ≠ n2) ∧
    (∀ (s s1 s2 : Session) (f : SourceFile) (n1 n2 : String),
      s.import_file f none = .ok (n1, s1) →
      s1.import_file f none = .ok (n2, s2) → n1 ≠ n2) ∧
    (∀ (s s1 s2 : Session) (name n1 n2 : String) (c1 c2 : List String)
      (d1 d2 : List Bool),
      s.sort_dataset name c1 d1 = .ok (n1, s1) →
      s1.sort_dataset name c2 d2 = .ok (n2, s2) →
      n1 = name ++ "_sorted" ∧ n2 = name ++ "_sorted") := by
  refine ⟨?_, ?_, ?_, ?_, ?_, ?_, ?_⟩
  · intro s
    exact ⟨rfl, rfl⟩
  · intro s s1 s2 name w1 w2 n1 n2 h1 h2
    obtain ⟨hn1, hc1⟩ := filter_sql_shape h1
    obtain ⟨hn2, _⟩ := filter_sql_shape h2
    rw [hn1, hn2, hc1]
    exact append_natToString_ne _ (by omega)
  · intro s s1 s2 name n1 n2 g1 g2 a1 a2 h1 h2
    obtain ⟨hn1, hc1⟩ := group_by_shape h1
    obtain ⟨hn2, _⟩ := group_by_shape h2
    rw [hn1, hn2, hc1]
    exact append_natToString_ne _ (by omega)
  · intro s s1 s2 name e1 e2 al1 al2 n1 n2 h1 h2
    obtain ⟨hn1, hc1⟩ := add_calc_shape h1
    obtain ⟨hn2, _⟩ := add_calc_shape h2
    rw [hn1, hn2, hc1]
    exact append_natToString_ne _ (by omega)
  · intro s s1 s2 sql1 sql2 n1 n2 h1 h2
    obtain ⟨hn1, hc1⟩ := execute_sql_shape h1
    obtain ⟨hn2, _⟩ := execute_sql_shape h2
    rw [hn1, hn2, hc1]
    exact append_natToString_ne _ (by omega)
  · intro s s1 s2 f n1 n2 h1 h2
    obtain ⟨hn1, hc1⟩ := import_none_shape h1
    obtain ⟨hn2, _⟩ := import_none_shape h2
    rw [hn1, hn2, hc1]
    exact append_natToString_ne _ (by omega)
  · intro s s1 s2 name n1 n2 c1 c2 d1 d2 h1 h2
    exact ⟨sort_shape h1, sort_shape h2⟩

/-- Witness for C6: two consecutive SQL filters of the same table produce
the distinct names `t_filtered_1` and `t_filtered_2`. -/
theorem C6_generated_names_wit : ("t_filtered_1" : String) ≠ "t_filtered_2" :=
  C6_generated_names.2.1
    { storage := some { db_path := ":memory:", tables := ["t"] },
      transient := [], counter := 0 }
    { storage := some { db_path := ":memory:", tables := ["t", "t_filtered_1"] },
      transient := [], counter := 1 }
    { storage := some
        { db_path := ":memory:", tables := ["t", "t_filtered_1", "t_filtered_2"] },
      transient := [], counter := 2 }
    "t" "age > 0" "age > 0" "t_filtered_1" "t_filtered_2"
    (by decide) (by decide)

/-! ## Claim C7 -/

/-- Counterexample for C7 as stated: a newly created session already has an
active (in-memory scratch) store, so importing and running SQL in a fresh
session succeed instead of failing with `NoProjectOpen` (exactly the
behaviour the session's own unit tests rely on). -/
theorem C7_scratch_store_cex :
    Session.new.storage = some { db_path := ":memory:", tables := [] } ∧
    Session.new.import_file ⟨"people.csv", true, "csv", "people"⟩ (some "people") =
      .ok ("people",
        { storage := some { db_path := ":memory:", tables := ["people"] },
          transient := [], counter := 0 }) ∧
    Session.new.execute_sql "SELECT 1" ≠ .error .noProjectOpen := by
  exact ⟨rfl, by decide, by decide⟩

/-- Claim C7 as amended: a newly created session immediately activates an
in-memory scratch store (so mutating operations need no project), and when
the storage handle is absent the operations fail as follows: `import_file`,
`execute_sql` and `execute_sql_to_ipc` with `NoProjectOpen`;
`filter_dataset_sql` with a `Session` error; `group_by` and
`add_calculated_column` with `TableNotFound`.  With a store present,
`execute_sql` succeeds and `import_file` succeeds on an existing file of a
supported format. -/
theorem C7_no_project_errors (s : Session) (f : SourceFile)
    (tn : Option String) (sql name w expr al : String) (gc ae : List String) :
    (s.storage = none → s.import_file f tn = .error .noProjectOpen) ∧
    (s.storage = none → s.execute_sql sql = .error .noProjectOpen) ∧
    (s.storage = none → s.execute_sql_to_ipc sql = .error .noProjectOpen) ∧
    (s.storage = none → s.filter_dataset_sql name w =
      .error (.session ("SQL filter requires an active project. Table '" ++
        name ++ "' not found in DuckDB."))) ∧
    (s.storage = none → s.group_by name gc ae = .error (.tableNotFound name)) ∧
    (s.storage = none →
      s.add_calculated_column name expr al = .error (.tableNotFound name)) ∧
    (∀ st, s.storage = some st → ∃ r, s.execute_sql sql = .ok r) ∧
    (∀ st, s.storage = some st → f.present = true →
      supportedExtension f.ext = true → ∃ r, s.import_file f tn = .ok r) := by
  refine ⟨?_, ?_, ?_, ?_, ?_, ?_, ?_, ?_⟩
  · intro h
    cases tn <;> simp [Session.import_file, h]
  · intro h
    simp [Session.execute_sql, h]
  · intro h
    simp [Session.execute_sql_to_ipc, h]
  · intro h
    simp [Session.filter_dataset_sql, h]
  · intro h
    simp [Session.group_by, h]
  · intro h
    simp [Session.add_calculated_column, h]
  · intro st h
    simp [Session.execute_sql, h]
  · intro st h hp hext
    cases tn <;>
      simp [Session.import_file, h, DuckStorage.import_file, hp, hext]

/-- Witness for the amended C7: on a session whose storage handle is
absent, `execute_sql` fails with `NoProjectOpen`, and on the fresh scratch
session it succeeds. -/
theorem C7_no_project_errors_wit :
    Session.execute_sql { storage := none, transient := [], counter := 0 }
      "SELECT 1" = .error .noProjectOpen ∧
    (∃ r, Session.new.execute_sql "SELECT 1" = .ok r) := by
  constructor
  · exact (C7_no_project_errors
      { storage := none, transient := [], counter := 0 }
      ⟨"x.csv", true, "csv", "x"⟩ none "SELECT 1" "t" "w" "e" "a" [] []).2.1 rfl
  · exact (C7_no_project_errors Session.new
      ⟨"x.csv", true, "csv", "x"⟩ none "SELECT 1" "t" "w" "e" "a" [] []).2.2.2.2.2.2.1
      { db_path := ":memory:", tables := [] } rfl

/-! ## Claim C8 -/

/-- Claim C8: after a successful `open_project` the transient map is empty,
so a name registered transiently before the call resolves afterwards only
if the newly opened store has a table of that name: otherwise preview,
info, chunk and row count all fail with the dataset-not-found error. -/
theorem C8_open_project_invalidates (s : Session) (db : String)
    (existing : List String) (name : String) (off lim : Nat) :
    (s.open_project db existing).2.transient = [] ∧
    (s.open_project db existing).1 = existing ∧
    (name ∉ existing →
      (s.open_project db existing).2.get_preview_ipc name lim =
        .error (.tableNotFound name) ∧
      (s.open_project db existing).2.get_chunk_ipc name off lim =
        .error (.tableNotFound name) ∧
      (s.open_project db existing).2.get_row_count name =
        .error (.tableNotFound name) ∧
      (s.open_project db existing).2.dataset_info name =
        .error (.tableNotFound name)) ∧
    (name ∈ existing →
      (s.open_project db existing).2.get_preview_ipc name lim =
        .ok (.storageChunk name 0 lim)) := by
  refine ⟨rfl, rfl, ?_, ?_⟩
  · intro hnot
    exact ⟨by simp [Session.open_project, Session.get_preview_ipc,
        DuckStorage.list_tables, hnot, tlookup],
      by simp [Session.open_project, Session.get_chunk_ipc,
        DuckStorage.list_tables, hnot, tlookup],
      by simp [Session.open_project, Session.get_row_count,
        DuckStorage.list_tables, hnot, tlookup],
      by simp [Session.open_project, Session.dataset_info,
        DuckStorage.list_tables, hnot, tlookup]⟩
  · intro hmem
    simp [Session.open_project, Session.get_preview_ipc,
      DuckStorage.list_tables, hmem]

/-- Witness for C8: a transient dataset registered before `open_project`
becomes unreachable after it. -/
theorem C8_open_project_invalidates_wit :
    (Session.open_project
      { storage := none, transient := [("t", .registered 3)], counter := 0 }
      "proj.duckdb" ["people"]).2.get_preview_ipc "t" 5 =
      .error (.tableNotFound "t") := by
  exact ((C8_open_project_invalidates
    { storage := none, transient := [("t", .registered 3)], counter := 0 }
    "proj.duckdb" ["people"] "t" 0 5).2.2.1 (by decide)).1

/-! ## Claims C9 and C10 -/

/-- Membership through ordered insertion. -/
theorem mem_insertSorted (x y : String) (l : List String) :
    x ∈ insertSorted y l ↔ x = y ∨ x ∈ l := by
  induction l with
  | nil => simp [insertSorted]
  | cons a l ih =>
    by_cases h : strLe y a
    · simp [insertSorted, h]
    · simp [insertSorted, h, ih]
      tauto

/-- Sorting does not change membership. -/
theorem mem_sortStrings (x : String) (l : List String) :
    x ∈ sortStrings l ↔ x ∈ l := by
  induction l with
  | nil => simp [sortStrings]
  | cons a l ih => simp [sortStrings, mem_insertSorted, ih]

/-- Removing adjacent duplicates does not change membership. -/
theorem mem_dedupAdjacent (x : String) :
    ∀ l : List String, x ∈ dedupAdjacent l ↔ x ∈ l
  | [] => by simp [dedupAdjacent]
  | [a] => by simp [dedupAdjacent]
  | a :: b :: rest => by
    by_cases h : a = b
    · subst h
      rw [dedupAdjacent, if_pos rfl, mem_dedupAdjacent x (a :: rest)]
      simp [List.mem_cons]
    · rw [dedupAdjacent, if_neg h]
      simp [List.mem_cons, mem_dedupAdjacent x (b :: rest)]

/-- A dataset name is listed exactly when one of the substrates has it. -/
theorem mem_list_datasets (s : Session) (x : String) :
    x ∈ s.list_datasets ↔ x ∈ tkeys s.transient ∨ s.persistentHas x = true := by
  unfold Session.list_datasets
  rw [mem_dedupAdjacent, mem_sortStrings, List.mem_append]
  cases hs : s.storage <;>
    simp [Session.persistentHas, hs, DuckStorage.list_tables]

/-- A key that looks up to nothing is not among the keys. -/
theorem tlookup_none_not_mem {m : List (String × LazyFrame)} {k : String}
    (h : tlookup m k = none) : k ∉ tkeys m := by
  induction m with
  | nil => simp [tkeys]
  | cons p rest ih =>
    by_cases hpk : p.1 = k
    · rw [tlookup, if_pos hpk] at h
      exact absurd h (by simp)
    · rw [tlookup, if_neg hpk] at h
      intro hmem
      rcases (by simpa [tkeys] using hmem : k = p.1 ∨ k ∈ tkeys rest) with rfl | hm
      · exact hpk rfl
      · exact (ih h) hm

/-- A key that looks up to a frame is among the keys. -/
theorem mem_tkeys_of_tlookup_some {m : List (String × LazyFrame)} {k : String}
    {lf : LazyFrame} (h : tlookup m k = some lf) : k ∈ tkeys m := by
  induction m with
  | nil => simp [tlookup] at h
  | cons p rest ih =>
    by_cases hpk : p.1 = k
    · simp [tkeys, ← hpk]
    · rw [tlookup, if_neg hpk] at h
      have := ih h
      simp [tkeys] at this ⊢
      tauto

/-- After removal, the key is gone from the transient keys. -/
theorem not_mem_tkeys_tremove (m : List (String × LazyFrame)) (k : String) :
    k ∉ tkeys (tremove m k) := by
  induction m with
  | nil => simp [tremove, tkeys]
  | cons p rest ih =>
    by_cases hpk : p.1 = k
    · rw [tremove, if_pos hpk]
      exact ih
    · rw [tremove, if_neg hpk]
      intro hmem
      rcases (by simpa [tkeys] using hmem :
          k = p.1 ∨ k ∈ tkeys (tremove rest k)) with rfl | hm
      · exact hpk rfl
      · exact ih hm

/-- Dropping a table removes its name from the store. -/
theorem not_mem_drop_table (st : DuckStorage) (name : String) :
    name ∉ (st.drop_table name).list_tables := by
  simp [DuckStorage.drop_table, DuckStorage.list_tables, List.mem_filter]

/-- The transient-presence test is the same as a successful lookup. -/
theorem transientHas_false_iff {s : Session} {name : String} :
    s.transientHas name = false ↔ tlookup s.transient name = none := by
  unfold Session.transientHas
  cases h : tlookup s.transient name <;> simp

/-- Claim C9: removing a name that exists in neither substrate returns
`Ok(false)` (not an error); removing a name that exists in exactly one
substrate returns `Ok(true)` and the name disappears from
`list_datasets`. -/
theorem C9_remove_dataset (s : Session) (name : String) :
    (s.persistentHas name = false → s.transientHas name = false →
      ∃ s', s.remove_dataset name = .ok (false, s')) ∧
    (s.persistentHas name = true → s.transientHas name = false →
      ∃ s', s.remove_dataset name = .ok (true, s') ∧
        name ∉ s'.list_datasets) ∧
    (s.persistentHas name = false → s.transientHas name = true →
      ∃ s', s.remove_dataset name = .ok (true, s') ∧
        name ∉ s'.list_datasets) ∧
    (s.persistentHas name = true → s.transientHas name = true →
      ∃ s', s.remove_dataset name = .ok (true, s')) := by
  refine ⟨?_, ?_, ?_, ?_⟩
  · intro hp ht
    rw [Session.transientHas] at ht
    cases hs : s.storage with
    | none =>
      refine ⟨{ s with transient := tremove s.transient name }, ?_⟩
      simp only [Session.remove_dataset, hs]
      rw [ht]
    | some st =>
      rw [Session.persistentHas, hs] at hp
      have hmem : name ∉ st.list_tables := of_decide_eq_false hp
      refine ⟨{ s with transient := tremove s.transient name }, ?_⟩
      simp only [Session.remove_dataset, hs, hmem, if_false]
      rw [ht]
  · intro hp ht
    have hnone : tlookup s.transient name = none := transientHas_false_iff.mp ht
    cases hs : s.storage with
    | none =>
      rw [Session.persistentHas, hs] at hp
      exact absurd hp (by simp)
    | some st =>
      rw [Session.persistentHas, hs] at hp
      have hmem : name ∈ st.list_tables := of_decide_eq_true hp
      refine ⟨{ s with storage := some (st.drop_table name) }, ?_, ?_⟩
      · simp [Session.remove_dataset, hs, hmem]
      · rw [mem_list_datasets]
        rintro (hk | hph)
        · exact (tlookup_none_not_mem hnone) hk
        · simp only [Session.persistentHas] at hph
          exact not_mem_drop_table st name (of_decide_eq_true hph)
  · intro hp ht
    rw [Session.transientHas] at ht
    cases hs : s.storage with
    | none =>
      refine ⟨{ s with transient := tremove s.transient name }, ?_, ?_⟩
      · simp only [Session.remove_dataset, hs]
        rw [ht]
      · rw [mem_list_datasets]
        rintro (hk | hph)
        · exact not_mem_tkeys_tremove s.transient name hk
        · simp [Session.persistentHas, hs] at hph
    | some st =>
      rw [Session.persistentHas, hs] at hp
      have hmem : name ∉ st.list_tables := of_decide_eq_false hp
      refine ⟨{ s with transient := tremove s.transient name }, ?_, ?_⟩
      · simp only [Session.remove_dataset, hs, hmem, if_false]
        rw [ht]
      · rw [mem_list_datasets]
        rintro (hk | hph)
        · exact not_mem_tkeys_tremove s.transient name hk
        · simp only [Session.persistentHas, hs] at hph
          exact hmem (of_decide_eq_true hph)
  · intro hp ht
    cases hs : s.storage with
    | none =>
      rw [Session.persistentHas, hs] at hp
      exact absurd hp (by simp)
    | some st =>
      rw [Session.persistentHas, hs] at hp
      have hmem : name ∈ st.list_tables := of_decide_eq_true hp
      exact ⟨{ s with storage := some (st.drop_table name) },
        by simp [Session.remove_dataset, hs, hmem]⟩

/-- Witness for C9: removing a nonexistent name reports false; removing an
existing persistent table reports true and delists it. -/
theorem C9_remove_dataset_wit :
    (∃ s', Session.remove_dataset
      { storage := some { db_path := ":memory:", tables := [] },
        transient := [], counter := 0 } "ghost" = .ok (false, s')) ∧
    (∃ s', Session.remove_dataset
      { storage := some { db_path := ":memory:", tables := ["remove_me"] },
        transient := [], counter := 0 } "remove_me" = .ok (true, s') ∧
      "remove_me" ∉ s'.list_datasets) := by
  constructor
  · exact (C9_remove_dataset
      { storage := some { db_path := ":memory:", tables := [] },
        transient := [], counter := 0 } "ghost").1 (by decide) (by decide)
  · exact (C9_remove_dataset
      { storage := some { db_path := ":memory:", tables := ["remove_me"] },
        transient := [], counter := 0 } "remove_me").2.1 (by decide) (by decide)

/-- Claim C10: when a name exists in both substrates, `remove_dataset`
drops only the persistent table and leaves the transient map unchanged, so
the name still resolves afterwards (now to the transient graph) and is
still listed — one call never empties both substrates of the name. -/
theorem C10_remove_both_substrates (s : Session) (st : DuckStorage)
    (name : String) (lf : LazyFrame) (off lim : Nat)
    (hs : s.storage = some st) (hmem : name ∈ st.list_tables)
    (hlk : tlookup s.transient name = some lf) :
    s.remove_dataset name =
      .ok (true, { s with storage := some (st.drop_table name) }) ∧
    ({ s with storage := some (st.drop_table name) } : Session).transient =
      s.transient ∧
    Session.get_preview_ipc { s with storage := some (st.drop_table name) }
      name lim = .ok (.transientSlice lf 0 lim) ∧
    Session.get_chunk_ipc { s with storage := some (st.drop_table name) }
      name off lim = .ok (.transientSlice lf off lim) ∧
    name ∈ ({ s with storage := some (st.drop_table name) } : Session).list_datasets := by
  refine ⟨?_, rfl, ?_, ?_, ?_⟩
  · simp [Session.remove_dataset, hs, hmem]
  · simp [Session.get_preview_ipc, not_mem_drop_table st name, hlk]
  · simp [Session.get_chunk_ipc, not_mem_drop_table st name, hlk]
  · rw [mem_list_datasets]
    exact Or.inl (mem_tkeys_of_tlookup_some hlk)

/-- Witness for C10 on a session holding the name in both substrates. -/
theorem C10_remove_both_substrates_wit :
    Session.remove_dataset
      { storage := some { db_path := ":memory:", tables := ["t"] },
        transient := [("t", .registered 1)], counter := 0 } "t" =
      .ok (true,
        { storage := some { db_path := ":memory:", tables := [] },
          transient := [("t", .registered 1)], counter := 0 }) ∧
    Session.get_preview_ipc
      { storage := some { db_path := ":memory:", tables := [] },
        transient := [("t", .registered 1)], counter := 0 } "t" 5 =
      .ok (.transientSlice (.registered 1) 0 5) := by
  have h := C10_remove_both_substrates
    { storage := some { db_path := ":memory:", tables := ["t"] },
      transient := [("t", .registered 1)], counter := 0 }
    { db_path := ":memory:", tables := ["t"] } "t" (.registered 1) 0 5
    rfl (by decide) (by decide)
  exact ⟨h.1, h.2.2.1⟩

end Rustora

section Scratch
open Rustora

example : FilterSpec.to_sql_where
    ⟨[⟨"city", .equals, "Boston"⟩], .and⟩ = .ok "\"city\" = 'Boston'" := by decide

example : FilterSpec.to_sql_where
    ⟨[⟨"age", .greaterThan, "30"⟩], .and⟩ = .ok "\"age\" > 30" := by decide

example : FilterSpec.to_sql_where
    ⟨[⟨"age", .greaterThan, "25"⟩, ⟨"city", .equals, "Boston"⟩], .and⟩ =
    .ok "\"age\" > 25 AND \"city\" = 'Boston'" := by decide

example : FilterSpec.to_sql_where
    ⟨[⟨"name", .equals, "'; DROP TABLE users; --"⟩], .and⟩ =
    .ok "\"name\" = '''; DROP TABLE users; --'" := by decide

example : FilterSpec.to_sql_where
    ⟨[⟨"name", .contains, "100%_done"⟩], .and⟩ =
    .ok "\"name\" LIKE '%100\\%\\_done%'" := by decide

example : FilterSpec.to_sql_where
    ⟨[⟨"created_at", .greaterThan, "2024-01-01"⟩], .and⟩ =
    .ok "\"created_at\" > '2024-01-01'" := by decide

example : FilterSpec.to_sql_where ⟨[], .and⟩ =
    .error (.session "Filter must have at least one condition") := by decide

example : FilterSpec.to_sql_where
    ⟨[⟨"col; DROP TABLE x", .equals, "val"⟩], .and⟩ =
    .error (.session "Invalid column name: col; DROP TABLE x") := by decide

example : is_numeric "30" = true := by decide
example : is_numeric "-3.5e2" = true := by decide
example : is_numeric "inf" = true := by decide
example : is_numeric "NaN" = true := by decide
example : is_numeric "2024-01-01" = false := by decide
example : is_numeric "" = false := by decide
example : is_numeric "." = false := by decide
example : is_numeric ".5" = true := by decide
example : is_numeric "5." = true := by decide
example : is_numeric "1e" = false := by decide

example : natToString 0 = "0" := by decide
example : natToString 1 = "1" := by decide
example : natToString 12 = "12" := by decide
example : natToString 120 = "120" := by decide
example : sanitize_table_name "my-data" = "my_data" := by decide
example : sanitize_table_name "sql_result_1" = "sql_result_1" := by decide

example : Session.new.import_file ⟨"data.csv", true, "csv", "data"⟩ (some "my-data") =
    .ok ("my-data",
      { storage := some { db_path := ":memory:", tables := ["my_data"] },
        transient := [], counter := 0 }) := by decide

example : Session.new.execute_sql "SELECT 1" =
    .ok ("sql_result_1",
      { storage := some { db_path := ":memory:", tables := ["sql_result_1"] },
        transient := [], counter := 1 }) := by decide

example : Session.new.import_file ⟨"people.csv", true, "csv", "people"⟩ none =
    .ok ("people_1",
      { storage := some { db_path := ":memory:", tables := ["people_1"] },
        transient := [], counter := 1 }) := by decide

example :
    (Session.new.scan_file ⟨"t.csv", true, "csv", "t"⟩) =
    .ok ("t_1",
      { storage := some { db_path := ":memory:", tables := [] },
        transient := [("t_1", .scan "t.csv")], counter := 1 }) := by decide

example : Session.new.scan_file ⟨"test.xlsx", true, "xlsx", "test"⟩ =
    .error (.unsupportedFormat "xlsx") := by decide

example :
    (({ storage := some { db_path := ":memory:", tables := ["a"] },
        transient := [("a", .registered 7)], counter := 0 } : Session).remove_dataset "a") =
    .ok (true,
      { storage := some { db_path := ":memory:", tables := [] },
        transient := [("a", .registered 7)], counter := 0 }) := by decide

example :
    (({ storage := some { db_path := ":memory:", tables := ["t"] },
        transient := [], counter := 0 } : Session).sort_dataset "t" ["age"] [false]) =
    .ok ("t_sorted",
      { storage := some { db_path := ":memory:", tables := ["t", "t_sorted"] },
        transient := [], counter := 0 }) := by decide

end Scratch
